import Mathlib

/-
Shallow embedding of the Steam-Time-Series ingestion/merge pipeline
(src/src/ingestion/ingestion_pipeline.py and src/src/ingest_data.py).

Timestamps are modelled as integers counting milliseconds since the Unix
epoch, matching the source where every timestamp is built by
pd.to_datetime(x[0], unit="ms") from an [epoch_ms, value] pair.  Pandas
data frames are modelled as a list of category-column names plus a list of
rows, each row a timestamp with one optional integer per category (none
models a pandas missing value).  Files on disk are modelled as optional
frame contents (none models a file that does not exist).  A raised Python
exception is modelled as an error value that aborts the remaining
statements of the enclosing call while earlier writes persist.
-/

namespace SteamTS

/-- One data-frame row: its timestamp plus one value per category column, in the
order of the frame's category list; none models a pandas missing value. -/
abbrev Row := Int × List (Option Int)

/-- A pandas data frame as built by the ingestion code: a timestamp column plus one
integer column per category (region name or request-status name). -/
structure Batch where
  categories : List String
  rows : List Row
deriving Repr, DecidableEq

/-- The timestamp column of a frame. -/
def Batch.stamps (b : Batch) : List Int := b.rows.map Prod.fst

/-- Column maximum, as in df["Timestamp"].max(); none models pandas NaT on an
empty column (every comparison with NaT is false). -/
def maxStamp? : List Int → Option Int
  | [] => none
  | t :: ts => some (match maxStamp? ts with | none => t | some m => max t m)

/-- Column minimum, as in df["Timestamp"].min(); none models pandas NaT. -/
def minStamp? : List Int → Option Int
  | [] => none
  | t :: ts => some (match minStamp? ts with | none => t | some m => min t m)

/-- Pandas column alignment: re-express a row's values (given for the columns
rowCats) in the column order cols, filling columns absent from rowCats with
missing values. -/
def alignVals (cols rowCats : List String) (vals : List (Option Int)) : List (Option Int) :=
  cols.map (fun c =>
    match rowCats.indexOf? c with
    | some i => vals.getD i none
    | none => none)

/-- pd.concat([old, new], axis=0, ignore_index=True): stacks the rows of the two
frames; the column set is the union (old's columns first, then new's extras) and a
value in a column absent from a row's frame is missing.  When the two column lists
coincide no realignment is needed. -/
def concatFrames (old new : Batch) : Batch :=
  if new.categories = old.categories then
    { categories := old.categories, rows := old.rows ++ new.rows }
  else
    let cols := old.categories ++ new.categories.filter (fun c => ¬ old.categories.contains c)
    { categories := cols,
      rows := old.rows.map (fun r => (r.1, alignVals cols old.categories r.2))
              ++ new.rows.map (fun r => (r.1, alignVals cols new.categories r.2)) }

/-- Translated from IngestionPipeline.__merge_with_old, bandwidth half (lines
120-142), given the frame read from the bandwidth CSV and the new frame.  Returns
the file content after the block together with the propagated assertion error, if
any (the assert precedes the write, so on error the file is unchanged). -/
def mergeBandwidthPipeline (old new : Batch) : Batch × Option String :=
  match maxStamp? old.stamps, minStamp? new.stamps, maxStamp? new.stamps with
  | some endOld, some startNew, some endNew =>
    if endOld < endNew then
      let diffMinutes : Int := (startNew - endOld).fdiv 60000
      if diffMinutes ≤ 10 then
        (concatFrames old { new with rows := new.rows.filter (fun r => decide (endOld < r.1)) },
         none)
      else (old, some "Data gap exists")
    else (old, none)
  | _, _, _ => (old, none)

/-- pandas Timestamp.hour of an epoch-millisecond instant. -/
def tsHour (t : Int) : Int := (t.fdiv 3600000) % 24

/-- Translated from IngestionPipeline.__merge_with_old, support half (lines
144-167): the merge additionally requires the new frame's latest timestamp to fall
on UTC hour 7, and the gap check is in whole days ((start - end).days, which
floors). -/
def mergeSupportPipeline (old new : Batch) : Batch × Option String :=
  match maxStamp? old.stamps, minStamp? new.stamps, maxStamp? new.stamps with
  | some endOld, some startNew, some endNew =>
    if endOld < endNew ∧ tsHour endNew = 7 then
      let diffDays : Int := (startNew - endOld).fdiv 86400000
      if diffDays ≤ 1 then
        (concatFrames old { new with rows := new.rows.filter (fun r => decide (endOld < r.1)) },
         none)
      else (old, some "Data gap exists")
    else (old, none)
  | _, _, _ => (old, none)

/-- The two persisted CSV files; none models a file that does not exist on disk. -/
structure Store where
  bandwidthFile : Option Batch
  supportFile : Option Batch
deriving Repr, DecidableEq

/-- Translated from IngestionPipeline.__merge_with_old (lines 113-167) as a whole:
the bandwidth block runs first and the support block second; pd.read_csv on a
missing file raises, an assertion failure raises, and a raised exception aborts the
remaining statements of the method while earlier to_csv writes persist.  The result
is the pair of files as left on disk plus the propagated error, if any. -/
def mergeWithOld (store : Store) (newBandwidth newSupport : Batch) : Store × Option String :=
  match store.bandwidthFile with
  | none => (store, some "FileNotFoundError")
  | some oldBandwidth =>
    match mergeBandwidthPipeline oldBandwidth newBandwidth with
    | (_, some e) => (store, some e)
    | (updatedBandwidth, none) =>
      let store1 : Store := { store with bandwidthFile := some updatedBandwidth }
      match store1.supportFile with
      | none => (store1, some "FileNotFoundError")
      | some oldSupport =>
        match mergeSupportPipeline oldSupport newSupport with
        | (_, some e) => (store1, some e)
        | (updatedSupport, none) => ({ store1 with supportFile := some updatedSupport }, none)

/-- Translated from ingest_data.merge_with_old (lines 64-80).  The argument is the
content of bandwidths.csv, none when the file does not exist (the os.path.exists
branch writes the incoming frame verbatim and returns).  Unlike the pipeline
version there is no recency condition: the gap assertion always runs, and when
either frame is empty the NaT comparison makes the assertion fail.  Returns the
file content after the call plus the propagated error, if any. -/
def mergeWithOldScript (file : Option Batch) (newDf : Batch) : Option Batch × Option String :=
  match file with
  | none => (some newDf, none)
  | some old =>
    match maxStamp? old.stamps, minStamp? newDf.stamps with
    | some endOld, some startNew =>
      let diffMinutes : Int := (startNew - endOld).fdiv 60000
      if diffMinutes ≤ 10 then
        (some (concatFrames old
          { newDf with rows := newDf.rows.filter (fun r => decide (endOld < r.1)) }), none)
      else (some old, some "Data gap exists")
    | _, _ => (some old, some "Data gap exists")

/-- One candidate HTTP response body for the bandwidth feed.  The field decoded is
the series list obtained by taking the text between the first "(" and the first ")"
and JSON-decoding it and then its embedded json field (source lines 55-58): none
models a response whose padded-callback delimiters are absent or whose payload does
not decode; each series is its label together with its list of [epoch_ms, value]
pairs. -/
structure RawResponse where
  decoded : Option (List (String × List (Int × Int)))
deriving Repr, DecidableEq

/-- Locating and decoding one candidate's payload.  The source performs this inline
with no exception handler, so a failure is a raised exception, modelled as an error
value. -/
def parseResponse (r : RawResponse) : Except String (List (String × List (Int × Int))) :=
  match r.decoded with
  | some s => .ok s
  | none => .error "unparseable response"

/-- Insert a timestamp into an ascending list, keeping it ascending. -/
def insertAsc (x : Int) : List Int → List Int
  | [] => [x]
  | y :: ys => if x ≤ y then x :: y :: ys else y :: insertAsc x ys

/-- Sort a timestamp list ascending, the effect of df.sort_values("Timestamp");
with duplicate-free keys every sorting algorithm yields the same list, so the
choice of algorithm is immaterial. -/
def sortAsc : List Int → List Int
  | [] => []
  | x :: xs => insertAsc x (sortAsc xs)

/-- Drop duplicate timestamps, keeping one representative of each: the outer-join
key set (before sorting, only the underlying set matters). -/
def dedupTs : List Int → List Int
  | [] => []
  | x :: xs => if xs.contains x then dedupTs xs else x :: dedupTs xs

/-- Building one data frame from a decoded series list (source lines 60-73): one
single-category frame per series, all outer-joined on the timestamp column (a
timestamp present in one series but not another yields a missing value for the
absent category), then sorted ascending by timestamp.  functools.reduce over an
empty frame list raises. -/
def buildBatch (seriesList : List (String × List (Int × Int))) : Except String Batch :=
  match seriesList with
  | [] => .error "reduce of empty sequence"
  | _ =>
    let allTs := sortAsc (dedupTs (seriesList.flatMap (fun s => s.2.map Prod.fst)))
    .ok { categories := seriesList.map Prod.fst,
          rows := allTs.map (fun t =>
            (t, seriesList.map (fun s => (s.2.find? (fun p => p.1 == t)).map Prod.snd))) }

/-- Translated from the candidate loop of IngestionPipeline.__get_newest_bandwidth_data
(lines 52-79): try each candidate in order and keep the frame with the most recent
final timestamp.  The accumulator is (newest_df, most_recent_timestamp), starting at
Python None; the inner Option models a NaT maximum from an empty frame, with which
every comparison is false.  A parse or build failure propagates: there is no
exception handler in the loop. -/
def probeBandwidth : List RawResponse → Option (Batch × Option Int) →
    Except String (Option (Batch × Option Int))
  | [], best => .ok best
  | r :: rest, best => do
    let seriesList ← parseResponse r
    let df ← buildBatch seriesList
    let lastTs := maxStamp? df.stamps
    match best with
    | none => probeBandwidth rest (some (df, lastTs))
    | some (bestDf, bestTs) =>
      match lastTs, bestTs with
      | some l, some m =>
        if m < l then probeBandwidth rest (some (df, some l))
        else probeBandwidth rest (some (bestDf, some m))
      | _, _ => probeBandwidth rest (some (bestDf, bestTs))

/-- Translated from IngestionPipeline.__get_newest_bandwidth_data (lines 52-84),
with the network responses for the four candidate identifiers as input: run the
candidate loop, then assert that some frame was kept ("No data found"). -/
def getNewestBandwidthData (responses : List RawResponse) : Except String Batch := do
  match ← probeBandwidth responses none with
  | some (df, _) => .ok df
  | none => .error "No data found"

/-- Label cleanup from __get_newest_support_data line 101:
label.replace("requests", "").strip(). -/
def stripLabel (s : String) : String := (s.replace "requests" "").trim

/-- Translated from IngestionPipeline.__get_newest_support_data (lines 86-111), with
the single HTTP response body given as its already JSON-decoded series list. -/
def getNewestSupportData (seriesList : List (String × List (Int × Int))) :
    Except String Batch :=
  buildBatch (seriesList.map (fun s => (stripLabel s.1, s.2)))

/-- Translated from IngestionPipeline.run (lines 169-176): fetch the newest
bandwidth frame, then the newest support frame, then merge both with the persisted
files.  There is no exception handler, so a failure in any stage aborts the run and
propagates to the caller, leaving later stages unexecuted. -/
def runPipeline (store : Store) (bandwidthResponses : List RawResponse)
    (supportSeries : List (String × List (Int × Int))) : Store × Option String :=
  match getNewestBandwidthData bandwidthResponses with
  | .error e => (store, some e)
  | .ok bandwidthDf =>
    match getNewestSupportData supportSeries with
    | .error e => (store, some e)
    | .ok supportDf => mergeWithOld store bandwidthDf supportDf

/-- Modelled from the spec: the fixed expected category set of the bandwidth feed
("9 named regions for bandwidth", data model section).  The source files contain no
such set and perform no completeness validation, so the concrete names are
representative; only the identity of the set matters to the claims below. -/
def expectedBandwidthCategories : List String :=
  ["North America", "South America", "Europe", "Asia", "Middle East", "Oceania",
   "Africa", "Russia", "China"]

/-! Helper lemmas about the embedded operations. -/

theorem maxStamp?_eq_none {l : List Int} : maxStamp? l = none ↔ l = [] := by
  cases l <;> simp [maxStamp?]

theorem minStamp?_eq_none {l : List Int} : minStamp? l = none ↔ l = [] := by
  cases l <;> simp [minStamp?]

theorem maxStamp?_mem {l : List Int} {m : Int} (h : maxStamp? l = some m) :
    m ∈ l := by
  induction l generalizing m with
  | nil => simp [maxStamp?] at h
  | cons t ts ih =>
    simp only [maxStamp?] at h
    cases hts : maxStamp? ts with
    | none =>
      rw [hts] at h
      simp only [Option.some.injEq] at h
      simp [← h]
    | some m' =>
      rw [hts] at h
      simp only [Option.some.injEq] at h
      rcases max_choice t m' with h1 | h1 <;> rw [← h, h1]
      · exact List.mem_cons_self _ _
      · exact List.mem_cons_of_mem _ (ih hts)

theorem minStamp?_mem {l : List Int} {m : Int} (h : minStamp? l = some m) :
    m ∈ l := by
  induction l generalizing m with
  | nil => simp [minStamp?] at h
  | cons t ts ih =>
    simp only [minStamp?] at h
    cases hts : minStamp? ts with
    | none =>
      rw [hts] at h
      simp only [Option.some.injEq] at h
      simp [← h]
    | some m' =>
      rw [hts] at h
      simp only [Option.some.injEq] at h
      rcases min_choice t m' with h1 | h1 <;> rw [← h, h1]
      · exact List.mem_cons_self _ _
      · exact List.mem_cons_of_mem _ (ih hts)

theorem le_maxStamp {l : List Int} {m t : Int} (hm : maxStamp? l = some m)
    (ht : t ∈ l) : t ≤ m := by
  induction l generalizing m with
  | nil => cases ht
  | cons a ts ih =>
    simp only [maxStamp?] at hm
    cases hts : maxStamp? ts with
    | none =>
      rw [hts] at hm
      simp only [Option.some.injEq] at hm
      have hnil : ts = [] := maxStamp?_eq_none.mp hts
      subst hnil
      rcases List.mem_singleton.mp ht with rfl
      exact le_of_eq hm
    | some m' =>
      rw [hts] at hm
      simp only [Option.some.injEq] at hm
      rcases List.mem_cons.mp ht with rfl | hmem
      · rw [← hm]; exact le_max_left _ _
      · calc t ≤ m' := ih hts hmem
          _ ≤ max a m' := le_max_right _ _
          _ = m := hm

theorem minStamp?_isSome_of_max {l : List Int} {m : Int}
    (h : maxStamp? l = some m) : ∃ s, minStamp? l = some s := by
  cases l with
  | nil => simp [maxStamp?] at h
  | cons t ts => exact ⟨_, rfl⟩

theorem concatFrames_stamps (old new : Batch) :
    (concatFrames old new).stamps = old.stamps ++ new.stamps := by
  unfold concatFrames
  split
  · simp [Batch.stamps]
  · simp [Batch.stamps, List.map_map, Function.comp_def]

theorem concatFrames_of_eq_cats {old new : Batch} (h : new.categories = old.categories) :
    concatFrames old new = { categories := old.categories, rows := old.rows ++ new.rows } := by
  unfold concatFrames
  rw [if_pos h]

theorem gapMinutes_le_iff {d : Int} (hd : (60000 : Int) ∣ d) :
    d.fdiv 60000 ≤ 10 ↔ d ≤ 600000 := by
  rw [Int.fdiv_eq_ediv _ (by norm_num)]
  omega

theorem gapMinutes_le_of_nonpos {d : Int} (hd : d ≤ 0) : d.fdiv 60000 ≤ 10 := by
  rw [Int.fdiv_eq_ediv _ (by norm_num)]
  omega

theorem gapDays_le_of_nonpos {d : Int} (hd : d ≤ 0) : d.fdiv 86400000 ≤ 1 := by
  rw [Int.fdiv_eq_ediv _ (by norm_num)]
  omega

/-- A one-column test frame used to instantiate the theorems below on concrete
inputs. -/
def wBatch (ts : List Int) : Batch :=
  { categories := ["North America"], rows := ts.map (fun t => (t, [some 1])) }

/-- C1: for the bandwidth feed, when the new batch's latest timestamp exceeds the
existing record's latest timestamp, the merge raises the fatal "Data gap exists"
error exactly when the new batch's first timestamp is more than 10 minutes
(600000 ms) after the existing record's last timestamp, and a batch starting
exactly 10 minutes after does not raise.  Timestamps are minute-aligned, as the
spec's data model requires of normalized bandwidth batches.  The equivalence holds
for the pipeline merge and for the standalone-script merge alike. -/
theorem bandwidth_gap_check (old new : Batch) (endOld startNew endNew : Int)
    (hO : maxStamp? old.stamps = some endOld)
    (hS : minStamp? new.stamps = some startNew)
    (hN : maxStamp? new.stamps = some endNew)
    (hdO : (60000 : Int) ∣ endOld) (hdS : (60000 : Int) ∣ startNew)
    (hnewer : endOld < endNew) :
    ((mergeBandwidthPipeline old new).2 = some "Data gap exists" ↔
        endOld + 600000 < startNew)
    ∧ ((mergeWithOldScript (some old) new).2 = some "Data gap exists" ↔
        endOld + 600000 < startNew)
    ∧ (startNew = endOld + 600000 → (mergeBandwidthPipeline old new).2 = none) := by
  have hdvd : (60000 : Int) ∣ (startNew - endOld) := dvd_sub hdS hdO
  have key : ((startNew - endOld).fdiv 60000 ≤ 10) ↔ startNew - endOld ≤ 600000 :=
    gapMinutes_le_iff hdvd
  refine ⟨?_, ?_, ?_⟩
  · simp only [mergeBandwidthPipeline, hO, hS, hN]
    rw [if_pos hnewer]
    by_cases hle : (startNew - endOld).fdiv 60000 ≤ 10
    · rw [if_pos hle]
      have hle' := key.mp hle
      constructor
      · intro hcontra; simp at hcontra
      · intro hgt; exact absurd hgt (by omega)
    · rw [if_neg hle]
      have hle' : ¬(startNew - endOld ≤ 600000) := fun h => hle (key.mpr h)
      constructor
      · intro _; omega
      · intro _; rfl
  · simp only [mergeWithOldScript, hO, hS]
    by_cases hle : (startNew - endOld).fdiv 60000 ≤ 10
    · rw [if_pos hle]
      have hle' := key.mp hle
      constructor
      · intro hcontra; simp at hcontra
      · intro hgt; exact absurd hgt (by omega)
    · rw [if_neg hle]
      have hle' : ¬(startNew - endOld ≤ 600000) := fun h => hle (key.mpr h)
      constructor
      · intro _; omega
      · intro _; rfl
  · intro hexact
    have h600 : startNew - endOld = 600000 := by omega
    simp only [mergeBandwidthPipeline, hO, hS, hN]
    rw [if_pos hnewer, h600, if_pos (by decide : ((600000 : Int).fdiv 60000 ≤ 10))]

/-- Closed instance of the C1 theorem: an old record ending at 0 and a batch
starting exactly 10 minutes later does not raise. -/
theorem bandwidth_gap_check_instance :
    (mergeBandwidthPipeline (wBatch [0]) (wBatch [600000, 1200000])).2 = none :=
  (bandwidth_gap_check (wBatch [0]) (wBatch [600000, 1200000]) 0 600000 1200000
    (by decide) (by decide) (by decide) (by norm_num) (by norm_num)
    (by norm_num)).2.2 (by norm_num)

/-- C2: for every feed, a batch whose latest timestamp does not exceed the existing
record's latest timestamp is a pure no-op: the persisted record is unchanged by the
pipeline's bandwidth merge, the pipeline's support merge, the whole merge step over
both files, and the standalone-script merge (whose rewrite has identical content).
Re-ingesting stale data is therefore safe and idempotent. -/
theorem stale_batch_merge_noop (oldB newB oldS newS : Batch) (store : Store)
    (eOB eNB eOS eNS : Int)
    (hOB : maxStamp? oldB.stamps = some eOB) (hNB : maxStamp? newB.stamps = some eNB)
    (hOS : maxStamp? oldS.stamps = some eOS) (hNS : maxStamp? newS.stamps = some eNS)
    (hcB : newB.categories = oldB.categories)
    (hstaleB : eNB ≤ eOB) (hstaleS : eNS ≤ eOS)
    (hsb : store.bandwidthFile = some oldB) (hss : store.supportFile = some oldS) :
    mergeBandwidthPipeline oldB newB = (oldB, none)
    ∧ mergeSupportPipeline oldS newS = (oldS, none)
    ∧ mergeWithOld store newB newS = (store, none)
    ∧ mergeWithOldScript (some oldB) newB = (some oldB, none) := by
  obtain ⟨sB, hSB⟩ := minStamp?_isSome_of_max hNB
  obtain ⟨sS, hSS⟩ := minStamp?_isSome_of_max hNS
  have h1 : mergeBandwidthPipeline oldB newB = (oldB, none) := by
    simp only [mergeBandwidthPipeline, hOB, hSB, hNB]
    rw [if_neg (not_lt.mpr hstaleB)]
  have h2 : mergeSupportPipeline oldS newS = (oldS, none) := by
    simp only [mergeSupportPipeline, hOS, hSS, hNS]
    rw [if_neg (fun h => absurd h.1 (not_lt.mpr hstaleS))]
  have h4 : mergeWithOldScript (some oldB) newB = (some oldB, none) := by
    have hsle : sB ≤ eNB := le_maxStamp hNB (minStamp?_mem hSB)
    have hgap : (sB - eOB).fdiv 60000 ≤ 10 := gapMinutes_le_of_nonpos (by omega)
    have hfilter : newB.rows.filter (fun r => decide (eOB < r.1)) = [] := by
      rw [List.filter_eq_nil_iff]
      intro r hr
      have hmem : r.1 ∈ newB.stamps := List.mem_map_of_mem Prod.fst hr
      have hle : r.1 ≤ eNB := le_maxStamp hNB hmem
      simp only [decide_eq_true_eq, not_lt]
      omega
    simp only [mergeWithOldScript, hOB, hSB]
    rw [if_pos hgap, hfilter, concatFrames_of_eq_cats (by simpa using hcB)]
    simp
  have h3 : mergeWithOld store newB newS = (store, none) := by
    obtain ⟨bf, sf⟩ := store
    simp only at hsb hss
    subst hsb; subst hss
    simp only [mergeWithOld, h1, h2]
  exact ⟨h1, h2, h3, h4⟩

/-- Closed instance of the C2 theorem at concrete stale batches. -/
theorem stale_batch_merge_noop_instance :
    mergeBandwidthPipeline (wBatch [0, 600000]) (wBatch [600000]) = (wBatch [0, 600000], none)
    ∧ mergeSupportPipeline (wBatch [25200000]) (wBatch [25200000])
        = (wBatch [25200000], none)
    ∧ mergeWithOld ⟨some (wBatch [0, 600000]), some (wBatch [25200000])⟩
        (wBatch [600000]) (wBatch [25200000])
        = (⟨some (wBatch [0, 600000]), some (wBatch [25200000])⟩, none)
    ∧ mergeWithOldScript (some (wBatch [0, 600000])) (wBatch [600000])
        = (some (wBatch [0, 600000]), none) :=
  stale_batch_merge_noop (wBatch [0, 600000]) (wBatch [600000]) (wBatch [25200000])
    (wBatch [25200000]) ⟨some (wBatch [0, 600000]), some (wBatch [25200000])⟩
    600000 600000 25200000 25200000
    (by decide) (by decide) (by decide) (by decide) (by decide)
    (by norm_num) (by norm_num) rfl rfl

/-- C5: for the support-requests feed, a batch whose latest timestamp does not fall
on UTC hour 7 is never merged, even when it is strictly newer than the existing
record: the merge leaves the record unchanged and raises nothing. -/
theorem support_merge_requires_hour_seven (old new : Batch) (endNew : Int)
    (hN : maxStamp? new.stamps = some endNew) (hhour : tsHour endNew ≠ 7) :
    mergeSupportPipeline old new = (old, none) := by
  obtain ⟨s, hS⟩ := minStamp?_isSome_of_max hN
  cases hO : maxStamp? old.stamps with
  | none => simp only [mergeSupportPipeline, hO, hS, hN]
  | some endOld =>
    simp only [mergeSupportPipeline, hO, hS, hN]
    rw [if_neg (fun h => absurd h.2 hhour)]

/-- Closed instance of the C5 theorem: a batch one day newer than the record but
with latest timestamp at UTC hour 0 is not merged. -/
theorem support_merge_requires_hour_seven_instance :
    mergeSupportPipeline (wBatch [25200000]) (wBatch [86400000])
      = (wBatch [25200000], none) :=
  support_merge_requires_hour_seven (wBatch [25200000]) (wBatch [86400000]) 86400000
    (by decide) (by decide)

/-- Whether consecutive entries of a timestamp column are each exactly step apart:
the fixed-grid property the spec attributes to the post-merge bandwidth record. -/
def onFixedGrid (step : Int) : List Int → Bool
  | [] => true
  | [_] => true
  | a :: b :: rest => (b - a == step) && onFixedGrid step (b :: rest)

/-- C3 counterexample: merging a batch whose rows are 20 minutes apart succeeds,
and the resulting record [0, 600000, 1800000] is not on a 10-minute grid — no
re-indexing or missing-slot insertion happens (the slot at 1200000 is absent). -/
theorem merged_record_not_on_ten_minute_grid :
    (mergeBandwidthPipeline (wBatch [0, 600000]) (wBatch [600000, 1800000])).2 = none
    ∧ (mergeBandwidthPipeline (wBatch [0, 600000]) (wBatch [600000, 1800000])).1.stamps
        = [0, 600000, 1800000]
    ∧ onFixedGrid 600000
        (mergeBandwidthPipeline (wBatch [0, 600000]) (wBatch [600000, 1800000])).1.stamps
        = false := by
  refine ⟨rfl, rfl, rfl⟩

/-- C3 amended: after a successful bandwidth merge the persisted record is exactly
the old record followed by the batch rows strictly newer than the old record's end;
the code performs no re-indexing onto a 10-minute grid, so adjacent timestamps may
be further apart than 10 minutes and unobserved slots are not materialized. -/
theorem bandwidth_merge_appends_without_resampling (old new : Batch) (endOld : Int)
    (hO : maxStamp? old.stamps = some endOld)
    (hcats : new.categories = old.categories)
    (hok : (mergeBandwidthPipeline old new).2 = none) :
    (mergeBandwidthPipeline old new).1.rows
      = old.rows ++ new.rows.filter (fun r => decide (endOld < r.1))
      ∨ (mergeBandwidthPipeline old new).1 = old := by
  cases hS : minStamp? new.stamps with
  | none =>
    right
    simp only [mergeBandwidthPipeline, hO, hS]
  | some startNew =>
    cases hN : maxStamp? new.stamps with
    | none =>
      rw [maxStamp?_eq_none.mp hN] at hS
      simp [minStamp?] at hS
    | some endNew =>
      by_cases hnewer : endOld < endNew
      · by_cases hgap : (startNew - endOld).fdiv 60000 ≤ 10
        · left
          simp only [mergeBandwidthPipeline, hO, hS, hN]
          rw [if_pos hnewer, if_pos hgap,
            concatFrames_of_eq_cats (by simpa using hcats)]
        · exfalso
          revert hok
          simp only [mergeBandwidthPipeline, hO, hS, hN]
          rw [if_pos hnewer, if_neg hgap]
          simp
      · right
        simp only [mergeBandwidthPipeline, hO, hS, hN]
        rw [if_neg hnewer]

/-- Closed instance of the amended C3 theorem at the counterexample's input. -/
theorem bandwidth_merge_appends_without_resampling_instance :
    (mergeBandwidthPipeline (wBatch [0, 600000]) (wBatch [600000, 1800000])).1.rows
      = (wBatch [0, 600000]).rows
        ++ (wBatch [600000, 1800000]).rows.filter (fun r => decide ((600000 : Int) < r.1))
    ∨ (mergeBandwidthPipeline (wBatch [0, 600000]) (wBatch [600000, 1800000])).1
        = wBatch [0, 600000] :=
  bandwidth_merge_appends_without_resampling (wBatch [0, 600000])
    (wBatch [600000, 1800000]) 600000 (by decide) rfl rfl

theorem maxStamp?_isSome_of_min {l : List Int} {m : Int}
    (h : minStamp? l = some m) : ∃ e, maxStamp? l = some e := by
  cases l with
  | nil => simp [minStamp?] at h
  | cons t ts => exact ⟨_, rfl⟩

/-- Rows kept by the strictly-newer filter are newer than every old timestamp. -/
theorem filter_tail_newer (old new : Batch) (endOld : Int)
    (hO : maxStamp? old.stamps = some endOld) :
    ∀ r ∈ new.rows.filter (fun r => decide (endOld < r.1)),
      ∀ t ∈ old.stamps, t < r.1 := by
  intro r hr t ht
  obtain ⟨-, hp⟩ := List.mem_filter.mp hr
  have h1 : endOld < r.1 := of_decide_eq_true hp
  have h2 : t ≤ endOld := le_maxStamp hO ht
  omega

/-- C9: every successful merge over a non-empty existing record (whose schema the
batch matches) writes the old record's rows unchanged and in their original order
first, followed only by rows strictly newer than every old timestamp — existing
history is never modified or dropped.  Holds for the pipeline's bandwidth merge,
the pipeline's support merge and the standalone-script merge. -/
theorem merge_preserves_old_history (old new : Batch) (endOld : Int)
    (hO : maxStamp? old.stamps = some endOld)
    (hcats : new.categories = old.categories) :
    ((mergeBandwidthPipeline old new).2 = none →
      ∃ tail, (mergeBandwidthPipeline old new).1.rows = old.rows ++ tail
        ∧ ∀ r ∈ tail, ∀ t ∈ old.stamps, t < r.1)
    ∧ ((mergeSupportPipeline old new).2 = none →
      ∃ tail, (mergeSupportPipeline old new).1.rows = old.rows ++ tail
        ∧ ∀ r ∈ tail, ∀ t ∈ old.stamps, t < r.1)
    ∧ (∀ res, mergeWithOldScript (some old) new = (some res, none) →
      ∃ tail, res.rows = old.rows ++ tail ∧ ∀ r ∈ tail, ∀ t ∈ old.stamps, t < r.1) := by
  have htail := filter_tail_newer old new endOld hO
  have hnoop : ∃ tail, old.rows = old.rows ++ tail
      ∧ ∀ r ∈ tail, ∀ t ∈ old.stamps, t < r.1 :=
    ⟨[], by simp, by simp⟩
  refine ⟨?_, ?_, ?_⟩
  · intro hok
    cases hS : minStamp? new.stamps with
    | none =>
      simp only [mergeBandwidthPipeline, hO, hS]
      exact hnoop
    | some startNew =>
      cases hN : maxStamp? new.stamps with
      | none =>
        rw [maxStamp?_eq_none.mp hN] at hS
        simp [minStamp?] at hS
      | some endNew =>
        by_cases hnewer : endOld < endNew
        · by_cases hgap : (startNew - endOld).fdiv 60000 ≤ 10
          · simp only [mergeBandwidthPipeline, hO, hS, hN]
            rw [if_pos hnewer, if_pos hgap]
            rw [concatFrames_of_eq_cats (by simpa using hcats)]
            exact ⟨_, rfl, htail⟩
          · exfalso
            revert hok
            simp only [mergeBandwidthPipeline, hO, hS, hN]
            rw [if_pos hnewer, if_neg hgap]
            simp
        · simp only [mergeBandwidthPipeline, hO, hS, hN]
          rw [if_neg hnewer]
          exact hnoop
  · intro hok
    cases hS : minStamp? new.stamps with
    | none =>
      simp only [mergeSupportPipeline, hO, hS]
      exact hnoop
    | some startNew =>
      cases hN : maxStamp? new.stamps with
      | none =>
        rw [maxStamp?_eq_none.mp hN] at hS
        simp [minStamp?] at hS
      | some endNew =>
        by_cases hcond : endOld < endNew ∧ tsHour endNew = 7
        · by_cases hgap : (startNew - endOld).fdiv 86400000 ≤ 1
          · simp only [mergeSupportPipeline, hO, hS, hN]
            rw [if_pos hcond, if_pos hgap]
            rw [concatFrames_of_eq_cats (by simpa using hcats)]
            exact ⟨_, rfl, htail⟩
          · exfalso
            revert hok
            simp only [mergeSupportPipeline, hO, hS, hN]
            rw [if_pos hcond, if_neg hgap]
            simp
        · simp only [mergeSupportPipeline, hO, hS, hN]
          rw [if_neg hcond]
          exact hnoop
  · intro res hres
    cases hS : minStamp? new.stamps with
    | none =>
      rw [mergeWithOldScript] at hres
      simp only [hO, hS] at hres
      simp at hres
    | some startNew =>
      by_cases hgap : (startNew - endOld).fdiv 60000 ≤ 10
      · rw [mergeWithOldScript] at hres
        simp only [hO, hS] at hres
        rw [if_pos hgap] at hres
        rw [concatFrames_of_eq_cats (by simpa using hcats)] at hres
        have h1 := congrArg Prod.fst hres
        simp only [Option.some.injEq] at h1
        subst h1
        exact ⟨_, rfl, htail⟩
      · rw [mergeWithOldScript] at hres
        simp only [hO, hS] at hres
        rw [if_neg hgap] at hres
        simp at hres

/-- Closed instance of the C9 theorem: merging an overlapping batch appends only
its strictly newer row after the untouched old record. -/
theorem merge_preserves_old_history_instance :
    ∃ tail,
      (mergeBandwidthPipeline (wBatch [0, 600000]) (wBatch [600000, 1200000])).1.rows
        = (wBatch [0, 600000]).rows ++ tail
      ∧ ∀ r ∈ tail, ∀ t ∈ (wBatch [0, 600000]).stamps, t < r.1 :=
  (merge_preserves_old_history (wBatch [0, 600000]) (wBatch [600000, 1200000]) 600000
    (by decide) rfl).1 rfl

/-- Appending the strictly-newer filtered rows after a sorted record keeps the
timestamp column strictly increasing. -/
theorem concat_filter_pairwise (old new : Batch) (endOld : Int)
    (hO : maxStamp? old.stamps = some endOld)
    (hso : List.Pairwise (· < ·) old.stamps)
    (hsn : List.Pairwise (· < ·) new.stamps) :
    List.Pairwise (· < ·)
      (concatFrames old
        { new with rows := new.rows.filter (fun r => decide (endOld < r.1)) }).stamps := by
  rw [concatFrames_stamps, List.pairwise_append]
  refine ⟨hso, ?_, ?_⟩
  · have hsub : ({ new with rows := new.rows.filter (fun r => decide (endOld < r.1)) } :
        Batch).stamps.Sublist new.stamps := by
      simp only [Batch.stamps]
      exact (List.filter_sublist _).map Prod.fst
    exact hsn.sublist hsub
  · intro a ha b hb
    simp only [Batch.stamps] at hb
    obtain ⟨r, hrf, rfl⟩ := List.mem_map.mp hb
    exact filter_tail_newer old new endOld hO r hrf a ha

/-- C10: when the existing record and the new batch each have strictly increasing
timestamps, every merge result again has strictly increasing (hence duplicate-free)
timestamps, and an overlapping batch — one whose first timestamp is at or before
the old record's last — never raises the gap error: its overlapping rows are
filtered out rather than duplicated.  Holds for the pipeline's bandwidth and
support merges and the standalone-script merge. -/
theorem merge_preserves_strict_increase (old new : Batch)
    (hso : List.Pairwise (· < ·) old.stamps)
    (hsn : List.Pairwise (· < ·) new.stamps) :
    List.Pairwise (· < ·) (mergeBandwidthPipeline old new).1.stamps
    ∧ List.Pairwise (· < ·) (mergeSupportPipeline old new).1.stamps
    ∧ (∀ res, (mergeWithOldScript (some old) new).1 = some res →
        List.Pairwise (· < ·) res.stamps)
    ∧ (∀ endOld startNew, maxStamp? old.stamps = some endOld →
        minStamp? new.stamps = some startNew → startNew ≤ endOld →
        (mergeBandwidthPipeline old new).2 = none
        ∧ (mergeWithOldScript (some old) new).2 = none) := by
  refine ⟨?_, ?_, ?_, ?_⟩
  · cases hO : maxStamp? old.stamps with
    | none => simp only [mergeBandwidthPipeline, hO]; exact hso
    | some endOld =>
      cases hS : minStamp? new.stamps with
      | none => simp only [mergeBandwidthPipeline, hO, hS]; exact hso
      | some startNew =>
        cases hN : maxStamp? new.stamps with
        | none =>
          rw [maxStamp?_eq_none.mp hN] at hS
          simp [minStamp?] at hS
        | some endNew =>
          by_cases hnewer : endOld < endNew
          · by_cases hgap : (startNew - endOld).fdiv 60000 ≤ 10
            · simp only [mergeBandwidthPipeline, hO, hS, hN]
              rw [if_pos hnewer, if_pos hgap]
              exact concat_filter_pairwise old new endOld hO hso hsn
            · simp only [mergeBandwidthPipeline, hO, hS, hN]
              rw [if_pos hnewer, if_neg hgap]
              exact hso
          · simp only [mergeBandwidthPipeline, hO, hS, hN]
            rw [if_neg hnewer]
            exact hso
  · cases hO : maxStamp? old.stamps with
    | none => simp only [mergeSupportPipeline, hO]; exact hso
    | some endOld =>
      cases hS : minStamp? new.stamps with
      | none => simp only [mergeSupportPipeline, hO, hS]; exact hso
      | some startNew =>
        cases hN : maxStamp? new.stamps with
        | none =>
          rw [maxStamp?_eq_none.mp hN] at hS
          simp [minStamp?] at hS
        | some endNew =>
          by_cases hcond : endOld < endNew ∧ tsHour endNew = 7
          · by_cases hgap : (startNew - endOld).fdiv 86400000 ≤ 1
            · simp only [mergeSupportPipeline, hO, hS, hN]
              rw [if_pos hcond, if_pos hgap]
              exact concat_filter_pairwise old new endOld hO hso hsn
            · simp only [mergeSupportPipeline, hO, hS, hN]
              rw [if_pos hcond, if_neg hgap]
              exact hso
          · simp only [mergeSupportPipeline, hO, hS, hN]
            rw [if_neg hcond]
            exact hso
  · intro res hres
    cases hO : maxStamp? old.stamps with
    | none =>
      rw [mergeWithOldScript] at hres
      simp only [hO, Option.some.injEq] at hres
      rw [← hres]; exact hso
    | some endOld =>
      cases hS : minStamp? new.stamps with
      | none =>
        rw [mergeWithOldScript] at hres
        simp only [hO, hS, Option.some.injEq] at hres
        rw [← hres]; exact hso
      | some startNew =>
        by_cases hgap : (startNew - endOld).fdiv 60000 ≤ 10
        · rw [mergeWithOldScript] at hres
          simp only [hO, hS] at hres
          rw [if_pos hgap] at hres
          simp only [Option.some.injEq] at hres
          rw [← hres]
          exact concat_filter_pairwise old new endOld hO hso hsn
        · rw [mergeWithOldScript] at hres
          simp only [hO, hS] at hres
          rw [if_neg hgap] at hres
          simp only [Option.some.injEq] at hres
          rw [← hres]; exact hso
  · intro endOld startNew hO hS hover
    obtain ⟨endNew, hN⟩ := maxStamp?_isSome_of_min hS
    have hgap : (startNew - endOld).fdiv 60000 ≤ 10 :=
      gapMinutes_le_of_nonpos (by omega)
    constructor
    · by_cases hnewer : endOld < endNew
      · simp only [mergeBandwidthPipeline, hO, hS, hN]
        rw [if_pos hnewer, if_pos hgap]
      · simp only [mergeBandwidthPipeline, hO, hS, hN]
        rw [if_neg hnewer]
    · simp only [mergeWithOldScript, hO, hS]
      rw [if_pos hgap]

/-- Closed instance of the C10 theorem: an overlapping strictly newer batch merges
without error into a strictly increasing record. -/
theorem merge_preserves_strict_increase_instance :
    List.Pairwise (fun a b => a < b)
      (mergeBandwidthPipeline (wBatch [0, 600000]) (wBatch [600000, 1200000])).1.stamps
    ∧ (mergeBandwidthPipeline (wBatch [0, 600000]) (wBatch [600000, 1200000])).2 = none :=
  ⟨(merge_preserves_strict_increase (wBatch [0, 600000]) (wBatch [600000, 1200000])
      (by decide) (by decide)).1,
   ((merge_preserves_strict_increase (wBatch [0, 600000]) (wBatch [600000, 1200000])
      (by decide) (by decide)).2.2.2 600000 600000 (by decide) (by decide)
      (by norm_num)).1⟩

/-- A candidate response carrying all 9 expected regions, final timestamp 0. -/
def rsp9 : RawResponse :=
  ⟨some (expectedBandwidthCategories.map (fun c => (c, [((0 : Int), (1 : Int))])))⟩

/-- A candidate response carrying only 8 of the 9 expected regions but fresher
data (final timestamp 600000). -/
def rsp8 : RawResponse :=
  ⟨some ((expectedBandwidthCategories.take 8).map (fun c => (c, [((600000 : Int), (1 : Int))])))⟩

/-- The frame built from rsp9: one row at timestamp 0 over all 9 regions. -/
def completeBatch : Batch :=
  { categories := expectedBandwidthCategories,
    rows := [(0, expectedBandwidthCategories.map (fun _ => some 1))] }

/-- The frame built from rsp8: one row at timestamp 600000 over only 8 regions. -/
def incompleteBatch : Batch :=
  { categories := expectedBandwidthCategories.take 8,
    rows := [(600000, (expectedBandwidthCategories.take 8).map (fun _ => some 1))] }

/-- C4 counterexample: the probe prefers the candidate with only 8 of the 9
expected regions because its final timestamp is fresher (completeness never enters
the bookkeeping), and the merge then writes that incomplete batch into the
historical record. -/
theorem incomplete_batch_selected_and_merged :
    getNewestBandwidthData [rsp9, rsp8] = Except.ok incompleteBatch
    ∧ incompleteBatch.categories ≠ expectedBandwidthCategories
    ∧ (mergeBandwidthPipeline completeBatch incompleteBatch).2 = none
    ∧ (mergeBandwidthPipeline completeBatch incompleteBatch).1 ≠ completeBatch :=
  ⟨rfl, by decide, rfl, by decide⟩

/-- C4 amended: no completeness gate exists.  The merge never inspects the
category set: any batch — whatever its categories — whose timestamps pass the
recency condition and the gap check is concatenated into the record, and the probe
ranks candidates purely by final timestamp. -/
theorem bandwidth_merge_ignores_category_set (old new : Batch)
    (endOld startNew endNew : Int)
    (hO : maxStamp? old.stamps = some endOld)
    (hS : minStamp? new.stamps = some startNew)
    (hN : maxStamp? new.stamps = some endNew)
    (hnewer : endOld < endNew)
    (hgap : (startNew - endOld).fdiv 60000 ≤ 10) :
    (mergeBandwidthPipeline old new).2 = none
    ∧ (mergeBandwidthPipeline old new).1
        = concatFrames old
            { new with rows := new.rows.filter (fun r => decide (endOld < r.1)) } := by
  simp only [mergeBandwidthPipeline, hO, hS, hN]
  rw [if_pos hnewer, if_pos hgap]
  exact ⟨rfl, rfl⟩

/-- Closed instance of the amended C4 theorem at the 8-region batch. -/
theorem bandwidth_merge_ignores_category_set_instance :
    (mergeBandwidthPipeline completeBatch incompleteBatch).2 = none
    ∧ (mergeBandwidthPipeline completeBatch incompleteBatch).1
        = concatFrames completeBatch
            { incompleteBatch with
              rows := incompleteBatch.rows.filter (fun r => decide ((0 : Int) < r.1)) } :=
  bandwidth_merge_ignores_category_set completeBatch incompleteBatch 0 600000 600000
    (by decide) (by decide) (by decide) (by norm_num) (by decide)

/-- A support record whose single observation sits at UTC hour 7 of day 0. -/
def oldSupportRecord : Batch := wBatch [25200000]

/-- A support batch one day newer than oldSupportRecord, still at UTC hour 7:
on its own it would merge cleanly. -/
def supportBatchOk : Batch := wBatch [111600000]

/-- A store holding both feed files. -/
def storeBoth : Store := ⟨some (wBatch [0]), some oldSupportRecord⟩

/-- A bandwidth batch starting 20 minutes after the record's end: a fatal gap. -/
def bandwidthGapBatch : Batch := wBatch [1200000, 1800000]

/-- C6 counterexample: a fatal bandwidth gap aborts the merge step before the
support feed is processed — the support file stays untouched even though its own
merge would have succeeded and written — while the error does reach the caller. -/
theorem bandwidth_gap_blocks_support_merge :
    mergeWithOld storeBoth bandwidthGapBatch supportBatchOk
      = (storeBoth, some "Data gap exists")
    ∧ (mergeSupportPipeline oldSupportRecord supportBatchOk).2 = none
    ∧ (mergeSupportPipeline oldSupportRecord supportBatchOk).1 ≠ oldSupportRecord :=
  ⟨rfl, rfl, by decide⟩

/-- C6 amended: feed failures are sequential, not isolated.  A bandwidth failure
makes __merge_with_old return with the store unchanged and the error propagated,
so the support feed is never processed that run; only in the reverse direction is
there isolation, because the bandwidth write completes before a support failure. -/
theorem merge_failures_sequential_not_isolated :
    (∀ (store : Store) (oldBW bw sup : Batch) (e : String),
      store.bandwidthFile = some oldBW →
      (mergeBandwidthPipeline oldBW bw).2 = some e →
      mergeWithOld store bw sup = (store, some e))
    ∧ (∀ (store : Store) (oldBW oldSup bw sup ubw : Batch) (e : String),
      store.bandwidthFile = some oldBW →
      store.supportFile = some oldSup →
      mergeBandwidthPipeline oldBW bw = (ubw, none) →
      (mergeSupportPipeline oldSup sup).2 = some e →
      mergeWithOld store bw sup
        = ({ store with bandwidthFile := some ubw }, some e)) := by
  constructor
  · intro store oldBW bw sup e h1 h2
    obtain ⟨bf, sf⟩ := store
    simp only at h1
    subst h1
    rcases hm : mergeBandwidthPipeline oldBW bw with ⟨f, s⟩
    rw [hm] at h2
    simp only at h2
    subst h2
    simp only [mergeWithOld, hm]
  · intro store oldBW oldSup bw sup ubw e h1 h2 h3 h4
    obtain ⟨bf, sf⟩ := store
    simp only at h1 h2
    subst h1
    subst h2
    rcases hms : mergeSupportPipeline oldSup sup with ⟨f2, s2⟩
    rw [hms] at h4
    simp only at h4
    subst h4
    simp only [mergeWithOld, h3, hms]

/-- Closed instance of the amended C6 theorem: the bandwidth gap error reaches the
caller with both files untouched. -/
theorem merge_failures_sequential_not_isolated_instance :
    mergeWithOld storeBoth bandwidthGapBatch supportBatchOk
      = (storeBoth, some "Data gap exists") :=
  merge_failures_sequential_not_isolated.1 storeBoth (wBatch [0]) bandwidthGapBatch
    supportBatchOk "Data gap exists" rfl rfl

/-- A candidate response whose padded-callback payload cannot be decoded. -/
def badResponse : RawResponse := ⟨none⟩

/-- C7 counterexample: an unparseable candidate aborts the probe — and with it the
whole run — even though the remaining candidate alone would have produced a valid
batch; the failure is not a skip. -/
theorem unparseable_candidate_aborts_probe :
    getNewestBandwidthData [badResponse, rsp9] = Except.error "unparseable response"
    ∧ getNewestBandwidthData [rsp9] = Except.ok completeBatch
    ∧ runPipeline storeBoth [badResponse, rsp9] []
        = (storeBoth, some "unparseable response") :=
  ⟨rfl, rfl, rfl⟩

/-- C7 amended: a candidate whose payload cannot be located or decoded raises an
error with no handler anywhere on the path: the probe stops at that candidate
without trying the remaining ones, and the error is fatal to the whole pipeline
run, which performs no merge. -/
theorem parse_failure_fatal_to_run (r : RawResponse) (rest : List RawResponse)
    (best : Option (Batch × Option Int)) (h : r.decoded = none) :
    probeBandwidth (r :: rest) best = Except.error "unparseable response"
    ∧ getNewestBandwidthData (r :: rest) = Except.error "unparseable response"
    ∧ ∀ (store : Store) (sseries : List (String × List (Int × Int))),
        runPipeline store (r :: rest) sseries
          = (store, some "unparseable response") := by
  have h1 : ∀ b, probeBandwidth (r :: rest) b = Except.error "unparseable response" := by
    intro b
    simp only [probeBandwidth, parseResponse, h]
    rfl
  have h2 : getNewestBandwidthData (r :: rest) = Except.error "unparseable response" := by
    simp only [getNewestBandwidthData, h1]
    rfl
  exact ⟨h1 best, h2, fun store sseries => by simp only [runPipeline, h2]⟩

/-- Closed instance of the amended C7 theorem at a concrete bad candidate. -/
theorem parse_failure_fatal_to_run_instance :
    getNewestBandwidthData [badResponse, rsp9] = Except.error "unparseable response" :=
  (parse_failure_fatal_to_run badResponse [rsp9] none rfl).2.1

/-- A store in which the bandwidth record file does not exist yet. -/
def storeNoBandwidthFile : Store := ⟨none, some oldSupportRecord⟩

/-- C8 counterexample: with no prior bandwidth record file, the pipeline's merge
step raises (pd.read_csv on a missing file) and the run fails; nothing is written
and no initial record is seeded. -/
theorem missing_record_file_fails_pipeline_run :
    mergeWithOld storeNoBandwidthFile (wBatch [0]) supportBatchOk
      = (storeNoBandwidthFile, some "FileNotFoundError") := rfl

/-- C8 amended: only the standalone script treats a missing record file as the
first-write base case, writing the incoming (already sorted upstream) batch
verbatim with no gap check; the IngestionPipeline reads the record unconditionally,
so a missing file is a run failure there. -/
theorem first_write_only_in_script :
    (∀ newDf : Batch, mergeWithOldScript none newDf = (some newDf, none))
    ∧ (∀ (store : Store) (bw sup : Batch), store.bandwidthFile = none →
        mergeWithOld store bw sup = (store, some "FileNotFoundError")) := by
  constructor
  · intro newDf; rfl
  · intro store bw sup h
    rw [mergeWithOld, h]

/-- Closed instance of the amended C8 theorem: the script seeds the record, the
pipeline fails. -/
theorem first_write_only_in_script_instance :
    mergeWithOldScript none (wBatch [0, 600000]) = (some (wBatch [0, 600000]), none)
    ∧ mergeWithOld storeNoBandwidthFile (wBatch [0]) supportBatchOk
        = (storeNoBandwidthFile, some "FileNotFoundError") :=
  ⟨first_write_only_in_script.1 (wBatch [0, 600000]),
   first_write_only_in_script.2 storeNoBandwidthFile (wBatch [0]) supportBatchOk rfl⟩

end SteamTS
